import Mathlib

/-!
# Puga Music Player — playback controller, verified against src/App.tsx

Shallow embedding of the playback-control state machine of `src/App.tsx`.
Each definition mirrors one source function; React `useState` setters become
functional record updates on `AppState`. Adapter side effects (the HTML audio
element's `src`/`load`/`play`/`pause`/`currentTime` commands) are external to
the controller state and are omitted; the one observable derived from the
element that the claims mention — its effective output volume, kept equal to
`isMuted ? 0 : volume` by lines 111 and 173 of the source — is modelled by
`audioVolume`.

Numbers: JavaScript numbers carried by the transport state (progress, volume,
duration) are modelled as `Rat`; list indices as they flow through the
controller are modelled as `Int` (the source computes `(currentTrackIndex ?? -1) + 1`
and `(currentTrackIndex - 1 + tracks.length) % tracks.length`), and the stored
`currentTrackIndex` as `Option Nat`, since `playTrack` only ever stores an
index it has bounds-checked.
-/

namespace Puga

/-- `RepeatMode` from src/types.ts: `'off' | 'all' | 'one'`. -/
inductive RepeatMode where
  | off
  | all
  | one
deriving DecidableEq

/-- `Track` from src/types.ts. -/
structure Track where
  id : String
  url : String
  title : String
  artist : String
deriving DecidableEq

/-- The React state of `App` (src/App.tsx lines 8–16): the transport state
owned by the playback controller. -/
structure AppState where
  tracks : List Track
  currentTrackIndex : Option Nat
  isPlaying : Bool
  progress : Rat
  volume : Rat
  isMuted : Bool
  duration : Rat
  repeatMode : RepeatMode
  isShuffle : Bool
deriving DecidableEq

/-- The initial state (the `useState` initializers, src/App.tsx lines 8–16). -/
def initialState : AppState :=
  { tracks := []
    currentTrackIndex := none
    isPlaying := false
    progress := 0
    volume := 3 / 4
    isMuted := false
    duration := 0
    repeatMode := RepeatMode.off
    isShuffle := false }

/-- `playTrack` (src/App.tsx lines 57–67): the spec's `selectAndPlay`.
Guarded by `index >= 0 && index < tracks.length`; on success stores the index
and sets `isPlaying`; otherwise nothing happens. The `audio.src`/`load`/`play`
calls are Adapter commands with no effect on controller state. -/
def playTrack (s : AppState) (index : Int) : AppState :=
  if 0 ≤ index ∧ index < (s.tracks.length : Int) then
    { s with currentTrackIndex := some index.toNat, isPlaying := true }
  else
    s

/-- `playNext` (src/App.tsx lines 69–94). `rand` stands for the value
`Math.floor(Math.random() * tracks.length)` drawn in the shuffle branch;
it is a parameter so the function stays deterministic. -/
def playNext (s : AppState) (rand : Nat) : AppState :=
  if s.tracks.length = 0 then
    s
  else if s.repeatMode = RepeatMode.one ∧ s.currentTrackIndex ≠ none then
    playTrack s (s.currentTrackIndex.getD 0 : Nat)
  else if s.isShuffle then
    playTrack s (rand : Nat)
  else
    let nextIndex : Int := s.currentTrackIndex.elim (-1) (fun j => (j : Int)) + 1
    if (s.tracks.length : Int) ≤ nextIndex then
      if s.repeatMode = RepeatMode.all then
        playTrack s 0
      else
        { s with isPlaying := false, currentTrackIndex := none }
    else
      playTrack s nextIndex

/-- `togglePlayPause` (src/App.tsx lines 127–145). The `<audio>` element is
rendered unconditionally (line 255), so `audioRef.current` is always present
and the final branch always runs; `setupAudioContext` touches only the
visualizer and is omitted. -/
def togglePlayPause (s : AppState) : AppState :=
  if s.currentTrackIndex = none ∧ 0 < s.tracks.length then
    playTrack s 0
  else
    { s with isPlaying := !s.isPlaying }

/-- `playPrev` (src/App.tsx lines 147–151): the spec's `playPrevious`. -/
def playPrev (s : AppState) : AppState :=
  if s.tracks.length = 0 ∨ s.currentTrackIndex = none then
    s
  else
    playTrack s
      (((s.currentTrackIndex.getD 0 : Nat) - 1 + (s.tracks.length : Int)) %
        (s.tracks.length : Int))

/-- `handleProgressChange` (src/App.tsx lines 153–159): the spec's `seek`.
The handler stores the incoming value as-is; `audio.currentTime := newTime`
is an Adapter command. -/
def handleProgressChange (s : AppState) (newTime : Rat) : AppState :=
  { s with progress := newTime }

/-- `handleVolumeChange` (src/App.tsx lines 161–168): the spec's `setVolume`.
`setIsMuted(newVolume === 0)`. -/
def handleVolumeChange (s : AppState) (newVolume : Rat) : AppState :=
  { s with volume := newVolume, isMuted := decide (newVolume = 0) }

/-- `toggleMute` (src/App.tsx lines 170–175). Only `isMuted` is flipped; the
stored `volume` is untouched (the `audio.volume` assignment is the Adapter
command mirrored by `audioVolume`). -/
def toggleMute (s : AppState) : AppState :=
  { s with isMuted := !s.isMuted }

/-- The effective output volume of the audio element: both the effect on
line 111 (`audio.volume = isMuted ? 0 : volume`) and `toggleMute`'s own
assignment on line 173 keep it equal to this function of the state. -/
def audioVolume (s : AppState) : Rat :=
  if s.isMuted then 0 else s.volume

/-- `toggleRepeatMode` (src/App.tsx lines 177–181): the spec's
`cycleRepeatMode`, rotating through the `modes` array `['off','all','one']`. -/
def toggleRepeatMode (s : AppState) : AppState :=
  { s with repeatMode :=
      match s.repeatMode with
      | RepeatMode.off => RepeatMode.all
      | RepeatMode.all => RepeatMode.one
      | RepeatMode.one => RepeatMode.off }

/-- The shuffle button's handler (src/App.tsx line 269): the spec's
`toggleShuffle`. -/
def toggleShuffle (s : AppState) : AppState :=
  { s with isShuffle := !s.isShuffle }

/-- The state transition of `handleFileChange` (src/App.tsx lines 50–53):
the spec's `appendTracks`, applied to the tracks that survived the
audio-type filter. Appends at the end and auto-selects index 0 when nothing
was selected and something was added. -/
def appendTracks (s : AppState) (newTracks : List Track) : AppState :=
  let s' := { s with tracks := s.tracks ++ newTracks }
  if s.currentTrackIndex = none ∧ 0 < newTracks.length then
    { s' with currentTrackIndex := some 0 }
  else
    s'

/-- The live state of the audio element that the `loadedmetadata` and
`timeupdate` handlers read at delivery time (src/App.tsx lines 99–104). -/
structure AudioElement where
  currentTime : Rat
  duration : Rat
deriving DecidableEq

/-- `handleTimeUpdate` (src/App.tsx line 104): copies the element's live
`currentTime` into `progress`, unconditionally. -/
def handleTimeUpdate (s : AppState) (audio : AudioElement) : AppState :=
  { s with progress := audio.currentTime }

/-- `setAudioData` (src/App.tsx lines 99–102, the `loadedmetadata` handler):
copies the element's live `duration` and `currentTime`, unconditionally. -/
def setAudioData (s : AppState) (audio : AudioElement) : AppState :=
  { s with duration := audio.duration, progress := audio.currentTime }

/-- The public command surface of the controller, for reachability. -/
inductive Action where
  | selectAndPlay (index : Int)
  | togglePlayPause
  | playNext (rand : Nat)
  | playPrev
  | seek (newTime : Rat)
  | setVolume (newVolume : Rat)
  | toggleMute
  | cycleRepeatMode
  | toggleShuffle
  | appendTracks (newTracks : List Track)

/-- One controller transition per user command. -/
def step (s : AppState) : Action → AppState
  | Action.selectAndPlay i => playTrack s i
  | Action.togglePlayPause => togglePlayPause s
  | Action.playNext r => playNext s r
  | Action.playPrev => playPrev s
  | Action.seek t => handleProgressChange s t
  | Action.setVolume v => handleVolumeChange s v
  | Action.toggleMute => toggleMute s
  | Action.cycleRepeatMode => toggleRepeatMode s
  | Action.toggleShuffle => toggleShuffle s
  | Action.appendTracks ts => appendTracks s ts

/-- States reachable from the initial state by user commands. -/
inductive Reachable : AppState → Prop
  | init : Reachable initialState
  | step {s : AppState} (hs : Reachable s) (a : Action) : Reachable (step s a)

/-- The transcription of the spec's `playNext` decision policy in the
non-shuffle case, written from the spec's words (§4.2 item `playNext`),
to be compared with the source's `playNext`. -/
def playNextSpecLinear (s : AppState) : AppState :=
  if s.repeatMode = RepeatMode.one ∧ s.currentTrackIndex ≠ none then
    { s with isPlaying := true }
  else
    let next : Nat := (s.currentTrackIndex.map (· + 1)).getD 0
    if next < s.tracks.length then
      { s with currentTrackIndex := some next, isPlaying := true }
    else if s.repeatMode = RepeatMode.all then
      { s with currentTrackIndex := some 0, isPlaying := true }
    else
      { s with isPlaying := false, currentTrackIndex := none }

/-! ## Concrete states used by witnesses and counterexamples -/

/-- A concrete track. -/
def tA : Track := { id := "a-1", url := "blob:a", title := "A", artist := "X" }

/-- A second concrete track. -/
def tB : Track := { id := "b-2", url := "blob:b", title := "B", artist := "Y" }

/-- A third concrete track. -/
def tC : Track := { id := "c-3", url := "blob:c", title := "C", artist := "Z" }

/-- A concrete state: two tracks, the first selected, paused, repeat off. -/
def sTwo : AppState :=
  { initialState with tracks := [tA, tB], currentTrackIndex := some 0 }

/-- A concrete state: three tracks, none selected. -/
def sThreeNone : AppState :=
  { initialState with tracks := [tA, tB, tC], duration := 200 }

/-! ## Theorems -/

/-- C5: `selectAndPlay(i)` (source `playTrack`) with `0 ≤ i < queueSize` sets
`currentIndex = i` and `isPlaying = true`; for every `i` outside that range it
is rejected synchronously with the state unchanged — the source's rendering of
the spec's `OutOfRange` failure, which §7 defines as "rejected synchronously,
state unchanged". -/
theorem C5_selectAndPlay_contract (s : AppState) (i : Int) :
    (0 ≤ i ∧ i < (s.tracks.length : Int) →
      (playTrack s i).currentTrackIndex = some i.toNat ∧
        (playTrack s i).isPlaying = true) ∧
    (¬(0 ≤ i ∧ i < (s.tracks.length : Int)) → playTrack s i = s) := by
  constructor
  · intro h
    simp [playTrack, h]
  · intro h
    simp [playTrack, h]

/-- Witness for C5 at `sTwo` and index 1 (in range). -/
theorem C5_selectAndPlay_contract_witness :
    (playTrack sTwo 1).currentTrackIndex = some 1 ∧
      (playTrack sTwo 1).isPlaying = true :=
  (C5_selectAndPlay_contract sTwo 1).1 (by decide)

/-- C7: `playPrevious` (source `playPrev`) is a no-op on an empty queue or
with no current track; otherwise it moves to
`(currentIndex - 1 + size) % size` and plays it, regardless of `repeatMode`
(the conclusion holds for whatever `repeatMode` the state carries, and leaves
`repeatMode` unchanged). -/
theorem C7_playPrev_wraps (s : AppState) :
    (s.tracks.length = 0 ∨ s.currentTrackIndex = none → playPrev s = s) ∧
    (∀ i, s.currentTrackIndex = some i → 0 < s.tracks.length →
      (playPrev s).currentTrackIndex =
        some ((((i : Int) - 1 + (s.tracks.length : Int)) %
          (s.tracks.length : Int)).toNat) ∧
      (playPrev s).isPlaying = true ∧
      (playPrev s).repeatMode = s.repeatMode) := by
  constructor
  · intro h
    simp only [playPrev, if_pos h]
  · intro i hcur hlen
    have hne2 : ¬(s.tracks.length = 0 ∨ (some i : Option Nat) = none) := by
      push_neg
      exact ⟨by omega, by simp⟩
    have hmod0 : 0 ≤ ((i : Int) - 1 + (s.tracks.length : Int)) %
        (s.tracks.length : Int) :=
      Int.emod_nonneg _ (by omega)
    have hmodlt : ((i : Int) - 1 + (s.tracks.length : Int)) %
        (s.tracks.length : Int) < (s.tracks.length : Int) :=
      Int.emod_lt_of_pos _ (by omega)
    simp only [playPrev, hcur, Option.getD_some, playTrack, if_neg hne2,
      if_pos (And.intro hmod0 hmodlt)]
    exact ⟨trivial, trivial, trivial⟩

/-- Witness for C7 at `sTwo` (index 0 of 2 wraps to the last index, 1). -/
theorem C7_playPrev_wraps_witness :
    (playPrev sTwo).currentTrackIndex =
      some (((((0 : Nat) : Int) - 1 + (sTwo.tracks.length : Int)) %
        (sTwo.tracks.length : Int)).toNat) ∧
    (playPrev sTwo).isPlaying = true ∧
    (playPrev sTwo).repeatMode = sTwo.repeatMode :=
  (C7_playPrev_wraps sTwo).2 0 (by decide) (by decide)

/-- C9: `playNext` on a non-empty queue with shuffle off and no current track
selects index 0 and plays it — the missing current index acts as the position
before the first track, for every repeat mode (repeat-one cannot fire without
a current track). -/
theorem C9_playNext_no_current_selects_zero (s : AppState) (r : Nat)
    (hne : s.tracks ≠ []) (hsh : s.isShuffle = false)
    (hcur : s.currentTrackIndex = none) :
    (playNext s r).currentTrackIndex = some 0 ∧ (playNext s r).isPlaying = true := by
  have hlen : 0 < s.tracks.length := List.length_pos.mpr hne
  have hlen' : ¬s.tracks.length = 0 := by omega
  simp only [playNext, hcur, hsh, if_neg hlen', ne_eq, not_true_eq_false,
    and_false, if_false, Bool.false_eq_true, Option.elim_none]
  have hcond : ¬((s.tracks.length : Int) ≤ -1 + 1) := by omega
  rw [if_neg hcond]
  simp [playTrack, hlen]

/-- Witness for C9 at `sThreeNone`. -/
theorem C9_playNext_no_current_selects_zero_witness :
    (playNext sThreeNone 0).currentTrackIndex = some 0 ∧
      (playNext sThreeNone 0).isPlaying = true :=
  C9_playNext_no_current_selects_zero sThreeNone 0 (by decide) (by decide) (by decide)

/-- C1: On a non-empty queue with shuffle off (and, as the queue invariant
guarantees, a bounds-valid current index if one is set), the source's
`playNext` coincides with the spec's priority policy `playNextSpecLinear`:
repeat-one replays the current index; otherwise linear advance, wrapping to 0
under repeat-all and stopping (`isPlaying = false`, `currentIndex = none`)
otherwise. -/
theorem C1_playNext_follows_policy (s : AppState) (r : Nat)
    (hne : s.tracks ≠ []) (hsh : s.isShuffle = false)
    (hvalid : ∀ j ∈ s.currentTrackIndex, j < s.tracks.length) :
    playNext s r = playNextSpecLinear s := by
  have hlen : 0 < s.tracks.length := List.length_pos.mpr hne
  unfold playNext playNextSpecLinear playTrack
  cases hcur : s.currentTrackIndex with
  | none =>
    simp only [hsh, Option.elim_none, Option.map_none', Option.getD_none]
    split_ifs <;> first
      | rfl
      | omega
      | (exfalso; omega)
      | simp_all
  | some j =>
    have hj : j < s.tracks.length := hvalid j (by simp [Option.mem_def, hcur])
    simp only [hsh, Option.elim_some, Option.map_some', Option.getD_some]
    split_ifs <;> first
      | rfl
      | omega
      | (exfalso; omega)
      | simp_all

/-- Witness for C1 at `sTwo` (two tracks, current index 0, repeat off). -/
theorem C1_playNext_follows_policy_witness :
    playNext sTwo 0 = playNextSpecLinear sTwo :=
  C1_playNext_follows_policy sTwo 0 (by decide) (by decide) (by decide)

/-- C8: `setVolume(0)` (source `handleVolumeChange`) always sets
`isMuted = true`; `setVolume(v)` with `v > 0` sets `isMuted = false`;
`toggleMute` leaves the stored volume untouched, so muting from an unmuted
state with non-zero volume silences the output (`audioVolume = 0`) and
unmuting again restores the output to that same non-zero volume. -/
theorem C8_volume_mute_policy (s : AppState) (v : Rat) :
    (handleVolumeChange s 0).isMuted = true ∧
    (0 < v → (handleVolumeChange s v).isMuted = false) ∧
    (toggleMute s).volume = s.volume ∧
    (s.isMuted = false → 0 < s.volume →
      audioVolume (toggleMute s) = 0 ∧
      audioVolume (toggleMute (toggleMute s)) = s.volume ∧
      0 < audioVolume (toggleMute (toggleMute s))) := by
  refine ⟨by simp [handleVolumeChange], ?_, rfl, ?_⟩
  · intro hv
    simp [handleVolumeChange, hv.ne']
  · intro hm hv
    simp [toggleMute, audioVolume, hm]
    exact hv

/-- Witness for C8 at the initial state (unmuted, volume 3/4) and `v = 1/2`. -/
theorem C8_volume_mute_policy_witness :
    (handleVolumeChange initialState (1 / 2)).isMuted = false ∧
    audioVolume (toggleMute (toggleMute initialState)) = initialState.volume :=
  ⟨(C8_volume_mute_policy initialState (1 / 2)).2.1 (by norm_num),
    ((C8_volume_mute_policy initialState (1 / 2)).2.2.2 (by decide)
      (by norm_num [initialState])).2.1⟩

/-! ## The playing-implies-selected invariant

The spec's invariant `isPlaying = true → currentIndex ≠ none` is violated by
`togglePlayPause` on the empty queue (the source falls through to
`setIsPlaying(!isPlaying)` when `tracks.length > 0` fails); the invariant that
does hold on every reachable state weakens the conclusion with "or the queue
is empty". -/

/-- The invariant that is actually preserved: a playing state has a current
track unless the queue is empty. -/
def SafeInv (s : AppState) : Prop :=
  s.isPlaying = true → s.currentTrackIndex ≠ none ∨ s.tracks = []

theorem safeInv_playTrack {s : AppState} (h : SafeInv s) (i : Int) :
    SafeInv (playTrack s i) := by
  unfold playTrack
  split
  · intro _
    left
    simp
  · exact h

theorem safeInv_togglePlayPause {s : AppState} (h : SafeInv s) :
    SafeInv (togglePlayPause s) := by
  unfold togglePlayPause
  split
  · exact safeInv_playTrack h 0
  · next hc =>
    intro _
    by_cases hnone : s.currentTrackIndex = none
    · right
      have hlen : ¬0 < s.tracks.length := fun hpos => hc ⟨hnone, hpos⟩
      have : s.tracks.length = 0 := by omega
      exact List.length_eq_zero.mp this
    · left
      exact hnone

theorem safeInv_stop {s : AppState} :
    SafeInv { s with isPlaying := false, currentTrackIndex := none } := by
  intro hp
  simp at hp

theorem safeInv_playNext {s : AppState} (h : SafeInv s) (r : Nat) :
    SafeInv (playNext s r) := by
  unfold playNext
  split
  · exact h
  split
  · exact safeInv_playTrack h _
  split
  · exact safeInv_playTrack h _
  split
  · dsimp only
    split
    · exact safeInv_playTrack h _
    · exact safeInv_playTrack h _
  · dsimp only
    split
    · exact safeInv_stop
    · exact safeInv_playTrack h _

theorem safeInv_playPrev {s : AppState} (h : SafeInv s) :
    SafeInv (playPrev s) := by
  unfold playPrev
  split
  · exact h
  · exact safeInv_playTrack h _

theorem safeInv_appendTracks {s : AppState} (h : SafeInv s)
    (ts : List Track) : SafeInv (appendTracks s ts) := by
  unfold appendTracks
  split
  · intro _
    left
    simp
  · next hc =>
    intro hp
    rcases h hp with hcur | hemp
    · left
      exact hcur
    · by_cases hnone : s.currentTrackIndex = none
      · right
        have hts : ¬0 < ts.length := fun hpos => hc ⟨hnone, hpos⟩
        have : ts = [] := List.length_eq_zero.mp (by omega)
        simp [hemp, this]
      · left
        exact hnone

theorem safeInv_reachable {s : AppState} (h : Reachable s) : SafeInv s := by
  induction h with
  | init =>
    intro hp
    simp [initialState] at hp
  | step hs a ih =>
    cases a with
    | selectAndPlay i => exact safeInv_playTrack ih i
    | togglePlayPause => exact safeInv_togglePlayPause ih
    | playNext r => exact safeInv_playNext ih r
    | playPrev => exact safeInv_playPrev ih
    | seek t => intro hp; exact ih hp
    | setVolume v => intro hp; exact ih hp
    | toggleMute => intro hp; exact ih hp
    | cycleRepeatMode => intro hp; exact ih hp
    | toggleShuffle => intro hp; exact ih hp
    | appendTracks ts => exact safeInv_appendTracks ih ts

/-- C2 counterexample: the initial state is reachable and `togglePlayPause`
(a public operation) breaks the claimed invariant there — the resulting
reachable state is playing with no current track, because the source's
empty-queue fall-through still executes `setIsPlaying(!isPlaying)`. -/
theorem C2_invariant_counterexample :
    Reachable (step initialState Action.togglePlayPause) ∧
    (step initialState Action.togglePlayPause).isPlaying = true ∧
    (step initialState Action.togglePlayPause).currentTrackIndex = none :=
  ⟨Reachable.step Reachable.init Action.togglePlayPause, by decide, by decide⟩

/-- C2 amended: on every reachable state, `isPlaying = true` implies
`currentIndex ≠ none` as long as the queue is non-empty; the unguarded case
is exactly `togglePlayPause` on the empty queue, where the implication's
conclusion fails but the queue-empty escape holds. -/
theorem C2_invariant_amended {s : AppState} (h : Reachable s)
    (hp : s.isPlaying = true) (hne : s.tracks ≠ []) :
    s.currentTrackIndex ≠ none := by
  rcases safeInv_reachable h hp with hc | he
  · exact hc
  · exact absurd he hne

/-- A reachable state that is playing with a non-empty queue: append one
track (auto-selects index 0), then `togglePlayPause`. -/
def sReach : AppState :=
  step (step initialState (Action.appendTracks [tA])) Action.togglePlayPause

/-- Witness for the amended C2 at `sReach`. -/
theorem C2_invariant_amended_witness : sReach.currentTrackIndex ≠ none :=
  C2_invariant_amended
    (Reachable.step (Reachable.step Reachable.init (Action.appendTracks [tA]))
      Action.togglePlayPause)
    (by decide) (by decide)

/-- C3 counterexample: the seek handler does not clamp — on a state with
known `duration = 200`, `seek(-5)` stores `position = -5`, not `0`. -/
theorem C3_seek_counterexample :
    sThreeNone.duration = 200 ∧
    (handleProgressChange sThreeNone (-5)).progress = -5 ∧
    (handleProgressChange sThreeNone (-5)).progress ≠ 0 := by
  refine ⟨rfl, rfl, ?_⟩
  norm_num [handleProgressChange, sThreeNone, initialState]

/-- C3 amended: `seek(t)` (source `handleProgressChange`) stores the raw
input value as `position`, unclamped, leaving duration, selection and play
state unchanged; range restriction is delegated to the slider control
(`min=0`, `max=duration`) and the media element, outside the handler. -/
theorem C3_seek_amended (s : AppState) (t : Rat) :
    (handleProgressChange s t).progress = t ∧
    (handleProgressChange s t).duration = s.duration ∧
    (handleProgressChange s t).currentTrackIndex = s.currentTrackIndex ∧
    (handleProgressChange s t).isPlaying = s.isPlaying :=
  ⟨rfl, rfl, rfl, rfl⟩

/-- C4 counterexample: with an empty queue, `togglePlayPause` is not a no-op —
from the initial state it flips `isPlaying` from `false` to `true`. -/
theorem C4_toggle_empty_counterexample :
    initialState.tracks = [] ∧
    initialState.isPlaying = false ∧
    (togglePlayPause initialState).isPlaying = true := by
  exact ⟨rfl, rfl, by decide⟩

/-- C4 amended: with no current track and a non-empty queue,
`togglePlayPause` behaves exactly as `selectAndPlay(0)` (source `playTrack 0`);
in every other case — the empty queue included — it toggles `isPlaying` and
leaves all other fields unchanged. -/
theorem C4_togglePlayPause_amended (s : AppState) :
    (s.currentTrackIndex = none ∧ 0 < s.tracks.length →
      togglePlayPause s = playTrack s 0) ∧
    (¬(s.currentTrackIndex = none ∧ 0 < s.tracks.length) →
      togglePlayPause s = { s with isPlaying := !s.isPlaying }) := by
  constructor
  · intro h
    simp only [togglePlayPause, if_pos h]
  · intro h
    simp only [togglePlayPause, if_neg h]

/-- Witness for the amended C4 at `sThreeNone` (no current track, three
tracks). -/
theorem C4_togglePlayPause_amended_witness :
    togglePlayPause sThreeNone = playTrack sThreeNone 0 :=
  (C4_togglePlayPause_amended sThreeNone).1 (by decide)

/-- C10: `toggleMute` never changes the stored `volume`, and applying it twice
returns the whole transport state (volume and `isMuted` included) to its
original value: it is an involution. -/
theorem C10_toggleMute_involution (s : AppState) :
    (toggleMute s).volume = s.volume ∧ toggleMute (toggleMute s) = s := by
  refine ⟨rfl, ?_⟩
  simp [toggleMute]

end Puga
